import Mathlib

/-!
Verification of `pylightlib.io.Database` (file `src/pylightlib/io/Database.py`).

The module wraps an SQLite store: it builds SQL text from structured
`Condition` / `ColumnOrder` arguments, executes it through an engine, and
post-processes the rows.  We embed the string-assembly functions and the
control flow of `fetch` / `insert` / `update` / `close` shallowly:

* Python scalar values become the inductive `Val` (floats are not needed by
  any property considered here);
* the `Condition` and `ColumnOrder` dataclasses become `CondV` / `OrderV`;
  since `_generate_conditions_str` and `fetch` compare list elements with
  Python's identity operator `is`, list elements are carried together with
  an object-identity tag (`CObj` / `OObj`, field `oid`): two entries alias
  the same Python object exactly when their tags coincide;
* the sqlite3 engine is abstract: a structure of state-transforming
  functions (`Engine`), with the SQL text issued through `Database.query`
  recorded in a trace so that statements like "a re-fetch is issued with
  condition id=0" are observable.
-/

/-- Python scalar values as handled by `Database.tostr`
(`None`, `str`, `int`, `bool`; floats are not used by the claims). -/
inductive Val : Type where
  | none : Val
  | str (s : String) : Val
  | int (n : Int) : Val
  | bool (b : Bool) : Val
deriving DecidableEq, Repr

/-- Embedding of `str.replace("'", "''")` on the character list: the pattern
is the single character `'`, so Python's replace rewrites it pointwise. -/
def escSQ : List Char → List Char
  | [] => []
  | c :: cs => if c = '\'' then '\'' :: '\'' :: escSQ cs else c :: escSQ cs

/-- Embedding of `Database.tostr` (Database.py lines 457-483):
`None → "NULL"`, strings are single-quoted with embedded quotes doubled,
anything else goes through Python's `str()` (so `str(True) = "True"`,
`str(7) = "7"`). -/
def tostr : Val → String
  | Val.none => "NULL"
  | Val.str s => "'" ++ String.mk (escSQ s.data) ++ "'"
  | Val.int n => toString n
  | Val.bool b => if b then "True" else "False"

/-- Number of single-quote characters in a string. -/
def countQuotes (s : String) : Nat := s.data.count '\''

/-- SQL comparison operators (enum `SQLComparisonOperator`). -/
inductive CmpOp : Type where
  | LT | LE | EQ | GE | GT
deriving DecidableEq, Repr

/-- The `.value` string of a comparison operator. -/
def CmpOp.value : CmpOp → String
  | CmpOp.LT => "<"
  | CmpOp.LE => "<="
  | CmpOp.EQ => "="
  | CmpOp.GE => ">="
  | CmpOp.GT => ">"

/-- SQL combination operators (enum `SQLCombinationOperator`). -/
inductive CombOp : Type where
  | AND | OR
deriving DecidableEq, Repr

/-- The `.value` string of a combination operator. -/
def CombOp.value : CombOp → String
  | CombOp.AND => "AND"
  | CombOp.OR => "OR"

/-- Sort directions (enum `SQLOrderByDirection`). -/
inductive Dir : Type where
  | ASC | DESC
deriving DecidableEq, Repr

/-- The `.value` string of a sort direction. -/
def Dir.value : Dir → String
  | Dir.ASC => "ASC"
  | Dir.DESC => "DESC"

/-- The `Condition` dataclass: column name, comparison operator, value and
the combination operator (default `AND`). -/
structure CondV : Type where
  column_name : String
  operator : CmpOp
  value : Val
  combination : CombOp := CombOp.AND
deriving DecidableEq, Repr

/-- A `Condition` Python object: its value together with an object-identity
tag; `a is b` in Python holds exactly when the tags agree. -/
structure CObj : Type where
  oid : Nat
  val : CondV
deriving DecidableEq, Repr

/-- The `ColumnOrder` dataclass: column name and direction. -/
structure OrderV : Type where
  column_name : String
  direction : Dir
deriving DecidableEq, Repr

/-- A `ColumnOrder` Python object with its identity tag. -/
structure OObj : Type where
  oid : Nat
  val : OrderV
deriving DecidableEq, Repr

/-- The text a single condition contributes:
`f'{cond.column_name}{cond.operator.value}{self.tostr(cond.value)}'`. -/
def renderCond (c : CObj) : String :=
  c.val.column_name ++ c.val.operator.value ++ tostr c.val.value

/-- Embedding of `Database._generate_conditions_str` (lines 428-455): loop over the
conditions; before every condition that is not the same object as
`conditions[0]` its own `combination.value` is inserted, then
`column operator value` is appended. -/
def generate_conditions_str (conditions : List CObj) : String :=
  match conditions with
  | [] => ""
  | c0 :: _ =>
    conditions.foldl
      (fun acc cond =>
        (if cond.oid = c0.oid then acc
         else acc ++ " " ++ cond.val.combination.value ++ " ") ++ renderCond cond)
      ""

/-- Embedding of Python's `', '.join(parts)`. -/
def commaJoin : List String → String
  | [] => ""
  | [x] => x
  | x :: y :: rest => x ++ ", " ++ commaJoin (y :: rest)

/-- The `SELECT` column list of `fetch` (lines 245-249):
`'*'` when `columns is None`, else `', '.join(columns)`. -/
def colsStr : Option (List String) → String
  | Option.none => "*"
  | Option.some cols => commaJoin cols

/-- The `WHERE` part of `fetch` (lines 251-255): present exactly when the
condition list is given and non-empty. -/
def condsStrOpt : Option (List CObj) → String
  | Option.none => ""
  | Option.some conds =>
    if conds.length > 0 then " WHERE " ++ generate_conditions_str conds else ""

/-- The text a single `ColumnOrder` contributes before its separator:
`f'{column.column_name} {column.direction.value}'`. -/
def renderOrd (c : OObj) : String :=
  c.val.column_name ++ " " ++ c.val.direction.value

/-- The `ORDER BY` part of `fetch` (lines 257-267): for a non-empty list,
start from `'ORDER BY '` and append each column's rendering followed by
`', '` unless the column is the same object as `orderby[-1]`. -/
def orderbyPart (obs : List OObj) : String :=
  match obs with
  | [] => ""
  | x :: xs =>
    let lastO := (x :: xs).getLast (List.cons_ne_nil x xs)
    (x :: xs).foldl
      (fun acc c =>
        acc ++ renderOrd c ++ (if c.oid = lastO.oid then "" else ", "))
      "ORDER BY "

/-- The `ORDER BY` part including the `None` / empty-list guard. -/
def orderbyStrOpt : Option (List OObj) → String
  | Option.none => ""
  | Option.some obs => if obs.length > 0 then orderbyPart obs else ""

/-- The `LIMIT` part of `fetch` (lines 269-273). -/
def limitStr : Option Int → String
  | Option.none => ""
  | Option.some n => if n > 0 then "LIMIT " ++ toString n else ""

/-- The `OFFSET` part of `fetch` (lines 275-279). -/
def offsetStr : Option Int → String
  | Option.none => ""
  | Option.some n => if n > 0 then "OFFSET " ++ toString n else ""

/-- The SQL text assembled by `Database.fetch` (lines 281-287):
`SELECT cols FROM table` + WHERE part + `' '` + ORDER BY part + `' '` +
LIMIT part + `' '` + OFFSET part. -/
def fetchSQL (table : String) (columns : Option (List String))
    (conditions : Option (List CObj)) (orderby : Option (List OObj))
    (limit offset : Option Int) : String :=
  "SELECT " ++ colsStr columns ++ " FROM " ++ table
    ++ condsStrOpt conditions
    ++ " " ++ orderbyStrOpt orderby
    ++ " " ++ limitStr limit
    ++ " " ++ offsetStr offset

/-- A row as returned by the sqlite3 row factory / passed to `insert`:
an ordered mapping from column names to scalar values. -/
abbrev Record : Type := List (String × Val)

/-- The abstract sqlite3 engine: `exec` runs an SQL statement on the engine
state, `rows` is `cursor.fetchall()` after the most recent statement,
`lastId` is `cursor.lastrowid` (None or an integer), `commit` is
`connection.commit()`. -/
structure Engine (σ : Type) : Type where
  exec : σ → String → σ
  rows : σ → List Record
  lastId : σ → Option Int
  commit : σ → σ

/-- Engine state paired with the trace of SQL statements issued through
`Database.query`. -/
abbrev St (σ : Type) : Type := σ × List String

/-- Embedding of `Database.query` (lines 190-210): hand the SQL text to the engine;
the text is recorded in the trace (in the source it is the string printed
in debug mode and executed by the cursor). -/
def query {σ : Type} (E : Engine σ) (s : St σ) (sql : String) : St σ :=
  (E.exec s.1 sql, s.2 ++ [sql])

/-- Embedding of `Database.fetch` (lines 212-293): assemble the SQL text, run it through
`query`, return the fetched rows. -/
def fetchE {σ : Type} (E : Engine σ) (s : St σ) (table : String)
    (columns : Option (List String)) (conditions : Option (List CObj))
    (orderby : Option (List OObj)) (limit offset : Option Int) :
    St σ × List Record :=
  let s' := query E s (fetchSQL table columns conditions orderby limit offset)
  (s', E.rows s'.1)

/-- The `VALUES` text of one row in `insert` (lines 321-328): each value is
rendered by `tostr`, followed by `', '` unless its key is the last key of
the row (Python compares the key objects of the same dict with `is`, which
for the unique keys of a dict is key equality). -/
def insertVals (row : Record) : String :=
  match row with
  | [] => ""
  | r :: rs =>
    let lastKey := ((r :: rs).getLast (List.cons_ne_nil r rs)).1
    (r :: rs).foldl
      (fun acc kv =>
        acc ++ tostr kv.2 ++ (if kv.1 = lastKey then "" else ", "))
      ""

/-- The `INSERT INTO table (cols) VALUES (vals)` text of one row
(lines 318-331). -/
def insertSQL (table : String) (row : Record) : String :=
  "INSERT INTO " ++ table ++ " (" ++ commaJoin (row.map Prod.fst)
    ++ ") VALUES (" ++ insertVals row ++ ")"

/-- Python's `last_id or 0` on `cursor.lastrowid`: `None` and `0` are falsy,
so both give `0`. -/
def lastIdOr0 : Option Int → Int
  | Option.none => 0
  | Option.some n => if n = 0 then 0 else n

/-- The condition list of the re-fetch in `insert` (lines 337-342):
`[Condition('id', EQ, last_id or 0)]` — one freshly constructed object. -/
def refetchConds (lastId : Option Int) : List CObj :=
  [⟨0, ⟨"id", CmpOp.EQ, Val.int (lastIdOr0 lastId), CombOp.AND⟩⟩]

/-- Embedding of `Database.insert` (lines 295-346): per input row, execute the INSERT,
read `lastrowid`, commit, re-fetch by `id = (last_id or 0)`, and append the
first fetched row to the result when the fetch returned anything. -/
def insertE {σ : Type} (E : Engine σ) (table : String) (data : List Record)
    (s : St σ) : St σ × List Record :=
  match data with
  | [] => (s, [])
  | row :: rest =>
    let s1 := query E s (insertSQL table row)
    let lastId := E.lastId s1.1
    let s2 : St σ := (E.commit s1.1, s1.2)
    let fr := fetchE E s2 table Option.none (Option.some (refetchConds lastId))
      Option.none Option.none Option.none
    let tail := insertE E table rest fr.1
    (tail.1,
      (match fr.2 with
       | r :: _ => [r]
       | [] => []) ++ tail.2)

/-- Per-row outcomes of `insert`, following the spec: each input row is
processed independently and yields `some` Record exactly when its re-fetch
found a row, `none` when the re-fetch came back empty (silent omission). -/
def insertOutcomes {σ : Type} (E : Engine σ) (table : String)
    (data : List Record) (s : St σ) : List (Option Record) :=
  match data with
  | [] => []
  | row :: rest =>
    let s1 := query E s (insertSQL table row)
    let lastId := E.lastId s1.1
    let s2 : St σ := (E.commit s1.1, s1.2)
    let fr := fetchE E s2 table Option.none (Option.some (refetchConds lastId))
      Option.none Option.none Option.none
    (match fr.2 with
     | r :: _ => Option.some r
     | [] => Option.none) :: insertOutcomes E table rest fr.1

/-- A value of an `update` row dictionary: either a column value or the
condition list stored under an `@`-prefixed key. -/
inductive UVal : Type where
  | v (x : Val) : UVal
  | conds (cs : List CObj) : UVal
deriving DecidableEq, Repr

/-- A row dictionary of `update`: ordered, uniquely keyed mapping. -/
abbrev URow : Type := List (String × UVal)

/-- Python's `col[0]` on a (non-empty) key string. -/
def pyHead (s : String) : Char := s.front

/-- Embedding of `del data[i][col]`: remove the entry with that key. -/
def delKey (row : URow) (k : String) : URow :=
  row.filter (fun kv => kv.1 ≠ k)

/-- The mutation `update` performs on one caller-supplied row dictionary
(lines 380-389): loop over a deep copy of the row's items and delete from
the original every key whose first character is `'@'`. -/
def stripCondKeys (row : URow) : URow :=
  row.foldl (fun cur kv => if pyHead kv.1 = '@' then delKey cur kv.1 else cur)
    row

/-- The net side effect of `Database.update` on its `data` argument
(lines 376-389): every row dictionary has its `@`-keys deleted in place. -/
def updateDataEffect (data : List URow) : List URow :=
  data.map stripCondKeys

/-- What the claim describes: keep exactly the entries whose key does not
begin with `'@'`, in order. -/
def removeCondKeys (row : URow) : URow :=
  row.filter (fun kv => ¬ pyHead kv.1 = '@')

/-- A sqlite3 connection, by its observable state: whether it has been
closed.  Per the sqlite3 module's documented behavior, `Connection.close()`
on an already-closed connection is a no-op and does not raise, and a
`Connection` object is always truthy (it defines neither `__bool__` nor
`__len__`). -/
structure PyConn : Type where
  closed : Bool
deriving DecidableEq, Repr

/-- Model of `sqlite3.Connection.close()`: always succeeds, leaving the connection
closed. -/
def connClose (c : PyConn) : Except String PyConn :=
  Except.ok { c with closed := true }

/-- Truthiness of a `sqlite3.Connection`: always `true`. -/
def connTruthy (_c : PyConn) : Bool := true

/-- Embedding of `Database.close` (lines 183-188): `if self.connection:
self.connection.close()`.  `self.connection` is never rebound, so the state
of the `Database` is its connection's state. -/
def closeD (c : PyConn) : Except String PyConn :=
  if connTruthy c then connClose c else Except.ok c

/-- Concatenation of a list of strings (Python `''.join`, used to describe
what the string-building loops accumulate). -/
def strJoin : List String → String
  | [] => ""
  | s :: rest => s ++ strJoin rest

lemma strJoin_append (l₁ l₂ : List String) :
    strJoin (l₁ ++ l₂) = strJoin l₁ ++ strJoin l₂ := by
  induction l₁ with
  | nil => simp [strJoin, String.empty_append]
  | cons s rest ih => simp [strJoin, ih, String.append_assoc]

lemma foldl_acc_join {α : Type} (g : α → String) (l : List α) (a : String) :
    l.foldl (fun acc c => acc ++ g c) a = a ++ strJoin (l.map g) := by
  induction l generalizing a with
  | nil => simp [strJoin, String.append_empty]
  | cons c cs ih => simp [List.foldl, strJoin, ih, String.append_assoc]

lemma escSQ_count (l : List Char) :
    (escSQ l).count '\'' = 2 * l.count '\'' := by
  induction l with
  | nil => simp [escSQ]
  | cons c cs ih =>
    by_cases h : c = '\''
    · subst h
      simp [escSQ, List.count_cons, ih]
      ring
    · simp [escSQ, h, List.count_cons, ih]

/-- Rendering of a plain `ColumnOrder` value (column name, space, direction). -/
def renderOrdV (v : OrderV) : String := v.column_name ++ " " ++ v.direction.value

/-- Fresh Python objects for a list of values: consecutive identity tags
starting at `n` (every element is a distinct object). -/
def tagFrom (n : Nat) : List OrderV → List OObj
  | [] => []
  | v :: vs => ⟨n, v⟩ :: tagFrom (n + 1) vs

/-- A freshly constructed `orderby` argument, as in
`[ColumnOrder("a", ASC), ColumnOrder("b", DESC)]`. -/
def tagO (l : List OrderV) : List OObj := tagFrom 0 l

/-- The identity tag of the last object of a list (`0` for the empty list,
which never arises in use). -/
def lastOidOf (obs : List OObj) : Nat :=
  (obs.getLast?.map OObj.oid).getD 0

lemma orderbyPart_char (x : OObj) (xs : List OObj) :
    orderbyPart (x :: xs)
      = "ORDER BY " ++ strJoin ((x :: xs).map (fun c =>
          renderOrd c ++ (if c.oid = lastOidOf (x :: xs) then "" else ", "))) := by
  have hlast : lastOidOf (x :: xs)
      = ((x :: xs).getLast (List.cons_ne_nil x xs)).oid := by
    simp [lastOidOf, List.getLast?_eq_getLast (x :: xs) (List.cons_ne_nil x xs)]
  rw [orderbyPart]
  rw [List.foldl_ext _
    (fun acc c => acc ++ (renderOrd c ++ (if c.oid = lastOidOf (x :: xs) then "" else ", ")))
    _ (by
      intro a c _
      rw [hlast, String.append_assoc])]
  rw [foldl_acc_join]

lemma gcs_char (c0 : CObj) (cs : List CObj) :
    generate_conditions_str (c0 :: cs)
      = strJoin ((c0 :: cs).map (fun c =>
          (if c.oid = c0.oid then "" else " " ++ c.val.combination.value ++ " ")
            ++ renderCond c)) := by
  rw [generate_conditions_str]
  rw [List.foldl_ext _
    (fun acc c => acc
      ++ ((if c.oid = c0.oid then "" else " " ++ c.val.combination.value ++ " ")
            ++ renderCond c))
    _ (by
      intro a c _
      by_cases h : c.oid = c0.oid
      · simp [h, String.empty_append]
      · simp [h, String.append_assoc])]
  rw [foldl_acc_join]
  exact String.empty_append _

/-- C1.  For `conditions = [Condition("name",EQ,"a",OR),
Condition("name",EQ,"b",AND)]` the code produces the WHERE text
`name='a' AND name='b'`, not `name='a' OR name='b'`: the separator written
before condition *i+1* is the combinator stored on condition *i+1*, not the
one stored on condition *i* as the spec (and the `Condition` docstring,
which says the combinator joins with the *next* condition) state. -/
theorem c1_combinator_taken_from_following_condition :
    generate_conditions_str
        [⟨0, ⟨"name", CmpOp.EQ, Val.str "a", CombOp.OR⟩⟩,
         ⟨1, ⟨"name", CmpOp.EQ, Val.str "b", CombOp.AND⟩⟩]
      = "name='a' AND name='b'"
    ∧ generate_conditions_str
        [⟨0, ⟨"name", CmpOp.EQ, Val.str "a", CombOp.OR⟩⟩,
         ⟨1, ⟨"name", CmpOp.EQ, Val.str "b", CombOp.AND⟩⟩]
      ≠ "name='a' OR name='b'" := by
  constructor
  · rfl
  · decide

/-- C2 counterexample.  `tostr` renders the boolean `True` as the Python
keyword text `"True"` — a string with no digit at all — not as bare decimal
text (`"1"`). -/
theorem c2_bool_not_rendered_as_decimal :
    tostr (Val.bool true) = "True"
    ∧ tostr (Val.bool true) ≠ "1"
    ∧ ¬ (tostr (Val.bool true)).data.all Char.isDigit := by
  refine ⟨rfl, by decide, by decide⟩

/-- C2 amended.  `tostr` renders booleans with Python's default text form:
`"True"` for true and `"False"` for false (a language keyword, not a
number). -/
theorem c2_bool_rendered_as_python_keyword (b : Bool) :
    tostr (Val.bool b) = if b then "True" else "False" := by
  cases b <;> rfl

/-- C3.  `tostr` renders the null value as `"NULL"`, and renders a string
containing `n` single quotes as a string containing exactly `2n + 2`
single-quote characters (the wrapping pair plus each embedded quote
doubled). -/
theorem c3_tostr_null_and_quote_doubling :
    tostr Val.none = "NULL"
    ∧ ∀ s : String, countQuotes (tostr (Val.str s)) = 2 * countQuotes s + 2 := by
  refine ⟨rfl, ?_⟩
  intro s
  show (("'" ++ String.mk (escSQ s.data) ++ "'").data).count '\''
      = 2 * s.data.count '\'' + 2
  rw [String.data_append, String.data_append]
  rw [List.count_append, List.count_append]
  show (['\''].count '\'') + (escSQ s.data).count '\'' + ['\''].count '\''
      = 2 * s.data.count '\'' + 2
  rw [escSQ_count]
  simp [List.count_cons]
  omega

/-- C5.  The SQL texts assembled by `fetch` for an empty condition list and
for an omitted (`None`) condition list are identical, for every table,
column list, orderby, limit and offset; and that common text is the
WHERE-free text `SELECT cols FROM table` followed by the ORDER BY / LIMIT /
OFFSET parts only. -/
theorem c5_fetch_empty_conditions_same_sql (t : String)
    (cols : Option (List String)) (ob : Option (List OObj))
    (l o : Option Int) :
    fetchSQL t cols (Option.some []) ob l o = fetchSQL t cols Option.none ob l o
    ∧ fetchSQL t cols Option.none ob l o
        = "SELECT " ++ colsStr cols ++ " FROM " ++ t
            ++ " " ++ orderbyStrOpt ob ++ " " ++ limitStr l
            ++ " " ++ offsetStr o := by
  constructor
  · rfl
  · show "SELECT " ++ colsStr cols ++ " FROM " ++ t ++ ""
        ++ " " ++ orderbyStrOpt ob ++ " " ++ limitStr l ++ " " ++ offsetStr o
      = _
    rw [String.append_empty]

/-- C7.  `Database.close` never fails and is idempotent: for every
connection state it succeeds, and calling it again on the resulting state
succeeds with that same state.  (The sqlite3 connection is modelled from
the sqlite3 module's documented behavior: `Connection.close()` on an
already-closed connection is a permitted no-op.) -/
theorem c7_close_idempotent_never_raises (c : PyConn) :
    ∃ c', closeD c = Except.ok c' ∧ closeD c' = Except.ok c' := by
  exact ⟨⟨true⟩, rfl, rfl⟩

lemma tagFrom_length (l : List OrderV) : ∀ n, (tagFrom n l).length = l.length := by
  induction l with
  | nil => intro n; rfl
  | cons v vs ih => intro n; simp [tagFrom, ih]

lemma lastOidOf_tagFrom (l : List OrderV) :
    ∀ n, l ≠ [] → lastOidOf (tagFrom n l) = n + l.length - 1 := by
  induction l with
  | nil => intro n h; exact absurd rfl h
  | cons v vs ih =>
    intro n _
    cases vs with
    | nil => simp [tagFrom, lastOidOf]
    | cons w rest =>
      have step : lastOidOf (tagFrom n (v :: w :: rest))
          = lastOidOf (tagFrom (n + 1) (w :: rest)) := by
        show lastOidOf (⟨n, v⟩ :: ⟨n + 1, w⟩ :: tagFrom (n + 2) rest)
          = lastOidOf (⟨n + 1, w⟩ :: tagFrom (n + 2) rest)
        simp [lastOidOf, List.getLast?_cons_cons]
      rw [step, ih (n + 1) (List.cons_ne_nil w rest)]
      simp
      omega

lemma pieces_tagFrom (l : List OrderV) :
    ∀ n L, l ≠ [] → L = n + l.length - 1 →
      strJoin ((tagFrom n l).map
          (fun c => renderOrd c ++ (if c.oid = L then "" else ", ")))
        = commaJoin (l.map renderOrdV) := by
  induction l with
  | nil => intro n L h _; exact absurd rfl h
  | cons v vs ih =>
    intro n L _ hL
    cases vs with
    | nil =>
      have hnL : n = L := by simp at hL; omega
      simp [tagFrom, strJoin, hnL, commaJoin, renderOrd, renderOrdV,
        String.append_empty]
    | cons w rest =>
      have hlen : L = n + rest.length + 1 := by simp at hL; omega
      have hne : ¬ n = L := by omega
      have htail : L = (n + 1) + (w :: rest).length - 1 := by simp; omega
      show strJoin ((renderOrd ⟨n, v⟩ ++ (if n = L then "" else ", "))
            :: (tagFrom (n + 1) (w :: rest)).map
                 (fun c => renderOrd c ++ (if c.oid = L then "" else ", ")))
          = commaJoin (renderOrdV v :: renderOrdV w :: rest.map renderOrdV)
      rw [strJoin, ih (n + 1) L (List.cons_ne_nil w rest) htail]
      simp only [hne, if_false]
      rfl

/-- C6.  For every non-empty `orderby` sequence of freshly constructed
`ColumnOrder` objects, the generated ORDER BY clause lists the columns with
their directions in exactly the given order, comma-separated, with no
reordering; and this is exactly the text `fetch` embeds in the SQL. -/
theorem c6_orderby_preserves_sequence_order (l : List OrderV) (h : l ≠ []) :
    orderbyPart (tagO l) = "ORDER BY " ++ commaJoin (l.map renderOrdV)
    ∧ orderbyStrOpt (Option.some (tagO l)) = orderbyPart (tagO l) := by
  constructor
  · cases l with
    | nil => exact absurd rfl h
    | cons x xs =>
      rw [show tagO (x :: xs) = ⟨0, x⟩ :: tagFrom 1 xs from rfl, orderbyPart_char]
      rw [show lastOidOf (⟨0, x⟩ :: tagFrom 1 xs) = 0 + (x :: xs).length - 1 from
        lastOidOf_tagFrom (x :: xs) 0 (List.cons_ne_nil x xs)]
      exact congrArg ("ORDER BY " ++ ·)
        (pieces_tagFrom (x :: xs) 0 (0 + (x :: xs).length - 1)
          (List.cons_ne_nil x xs) rfl)
  · show (if (tagO l).length > 0 then orderbyPart (tagO l) else "") = _
    have : (tagO l).length = l.length := tagFrom_length l 0
    rw [if_pos]
    rw [this]
    exact List.length_pos.mpr h

/-- C6 witness: the spec's example
`orderBy = [ColumnOrder("a",ASC), ColumnOrder("b",DESC)]` yields
`ORDER BY a ASC, b DESC`. -/
theorem c6_witness :
    orderbyPart (tagO [⟨"a", Dir.ASC⟩, ⟨"b", Dir.DESC⟩]) = "ORDER BY a ASC, b DESC" :=
  (c6_orderby_preserves_sequence_order [⟨"a", Dir.ASC⟩, ⟨"b", Dir.DESC⟩]
    (by decide)).1.trans (by rfl)

/-- C9.  Separator placement is decided by object identity: the WHERE
assembler puts a combinator in front of a condition exactly when that
condition is not the same object as the first list element (so an aliased
reappearance of the first object gets none), and `fetch` omits the comma
after exactly those `ColumnOrder` objects that alias the last element of
the `orderby` list. -/
theorem c9_identity_decides_separators :
    (∀ (c0 : CObj) (cs : List CObj),
      generate_conditions_str (c0 :: cs)
        = strJoin ((c0 :: cs).map (fun c =>
            (if c.oid = c0.oid then "" else " " ++ c.val.combination.value ++ " ")
              ++ renderCond c)))
    ∧ (∀ (x : OObj) (xs : List OObj),
      orderbyPart (x :: xs)
        = "ORDER BY " ++ strJoin ((x :: xs).map (fun c =>
            renderOrd c ++ (if c.oid = lastOidOf (x :: xs) then "" else ", "))))
    ∧ (∀ (a b : CObj) (mid : List CObj), b.oid = a.oid →
      generate_conditions_str (a :: (mid ++ [b]))
        = generate_conditions_str (a :: mid) ++ renderCond b) := by
  refine ⟨gcs_char, orderbyPart_char, ?_⟩
  intro a b mid hb
  rw [gcs_char, gcs_char]
  have hsplit : (a :: (mid ++ [b])) = (a :: mid) ++ [b] := by simp
  rw [hsplit, List.map_append, strJoin_append]
  simp [hb, strJoin, String.empty_append, String.append_empty]

/-- Concrete `Condition` objects for witnessing identity-based behavior. -/
def condObjA : CObj := ⟨0, ⟨"name", CmpOp.EQ, Val.str "a", CombOp.OR⟩⟩

/-- A second, distinct `Condition` object. -/
def condObjB : CObj := ⟨1, ⟨"name", CmpOp.EQ, Val.str "b", CombOp.AND⟩⟩

/-- C9 witness: when the first `Condition` object reappears at the end of
the list, no combinator is inserted before the repeated occurrence. -/
theorem c9_witness :
    generate_conditions_str [condObjA, condObjB, condObjA]
      = generate_conditions_str [condObjA, condObjB] ++ renderCond condObjA :=
  c9_identity_decides_separators.2.2 condObjA condObjA [condObjB] rfl

lemma foldl_del_filter (iter : List (String × UVal)) (cur : URow) :
    iter.foldl
        (fun cur kv => if pyHead kv.1 = '@' then delKey cur kv.1 else cur) cur
      = cur.filter
          (fun kv => decide (∀ j ∈ iter, pyHead j.1 = '@' → kv.1 ≠ j.1)) := by
  induction iter generalizing cur with
  | nil =>
    symm
    apply List.filter_eq_self.mpr
    intro kv _
    simp
  | cons j rest ih =>
    by_cases hj : pyHead j.1 = '@'
    · rw [List.foldl_cons, if_pos hj, ih (delKey cur j.1)]
      show ((cur.filter (fun kv => kv.1 ≠ j.1)).filter
          (fun kv => decide (∀ j' ∈ rest, pyHead j'.1 = '@' → kv.1 ≠ j'.1))) = _
      rw [List.filter_filter]
      apply List.filter_congr
      intro kv _
      rw [Bool.eq_iff_iff]
      simp only [Bool.and_eq_true, decide_eq_true_eq, List.mem_cons,
        forall_eq_or_imp, ne_eq]
      constructor
      · rintro ⟨hrest, hne⟩
        exact ⟨fun _ => hne, hrest⟩
      · rintro ⟨hcond, hrest⟩
        exact ⟨hrest, hcond hj⟩
    · rw [List.foldl_cons, if_neg hj, ih cur]
      apply List.filter_congr
      intro kv _
      rw [Bool.eq_iff_iff]
      simp only [decide_eq_true_eq, List.mem_cons, forall_eq_or_imp]
      constructor
      · intro h1
        exact ⟨fun hc => absurd hc hj, h1⟩
      · rintro ⟨_, h2⟩
        exact h2

/-- C8.  `update` mutates its `data` argument: for every row dictionary
(whose keys are non-empty strings, as Python's `col[0]` requires), every
key beginning with `'@'` is deleted from the caller's dictionary, and all
other entries are kept unchanged, in order. -/
theorem c8_update_strips_cond_keys_in_place (data : List URow)
    (_h : ∀ row ∈ data, ∀ kv ∈ row, kv.1 ≠ "") :
    updateDataEffect data = data.map removeCondKeys := by
  unfold updateDataEffect
  apply List.map_congr_left
  intro row _
  unfold stripCondKeys removeCondKeys
  rw [foldl_del_filter row row]
  apply List.filter_congr
  intro kv hkv
  rw [Bool.eq_iff_iff]
  simp only [decide_eq_true_eq]
  constructor
  · intro hall hat
    exact hall kv hkv hat rfl
  · intro hnot j _ hjat heq
    exact hnot (heq ▸ hjat)

/-- C8 witness: a concrete two-column row with an `@conds` entry loses
exactly that entry in place. -/
theorem c8_witness :
    (∀ row ∈ [[("col1", UVal.v (Val.str "v1")),
               ("@conds", UVal.conds [condObjA]),
               ("col2", UVal.v (Val.int 2))]],
       ∀ kv ∈ row, kv.1 ≠ "")
    ∧ updateDataEffect
        [[("col1", UVal.v (Val.str "v1")),
          ("@conds", UVal.conds [condObjA]),
          ("col2", UVal.v (Val.int 2))]]
      = [[("col1", UVal.v (Val.str "v1")),
          ("@conds", UVal.conds [condObjA]),
          ("col2", UVal.v (Val.int 2))]].map removeCondKeys :=
  ⟨by decide, c8_update_strips_cond_keys_in_place _ (by decide)⟩

lemma insertE_snd_eq {σ : Type} (E : Engine σ) (table : String) :
    ∀ (data : List Record) (s : St σ),
      (insertE E table data s).2
        = (insertOutcomes E table data s).filterMap id := by
  intro data
  induction data with
  | nil => intro s; rfl
  | cons row rest ih =>
    intro s
    simp only [insertE, insertOutcomes]
    cases (fetchE E (E.commit (query E s (insertSQL table row)).1,
        (query E s (insertSQL table row)).2) table Option.none
        (Option.some (refetchConds (E.lastId (query E s (insertSQL table row)).1)))
        Option.none Option.none Option.none).2 with
    | nil => simp [ih, List.filterMap_cons]
    | cons r rs => simp [ih, List.filterMap_cons]

lemma insertOutcomes_length {σ : Type} (E : Engine σ) (table : String) :
    ∀ (data : List Record) (s : St σ),
      (insertOutcomes E table data s).length = data.length := by
  intro data
  induction data with
  | nil => intro s; rfl
  | cons row rest ih =>
    intro s
    simp only [insertOutcomes, List.length_cons, ih]

/-- C4.  `insert` processes each row independently; the returned sequence
consists, in input order, of exactly the rows whose post-insert re-fetch
found something (`some` outcomes), rows with an empty re-fetch being
silently omitted; consequently its length never exceeds the input
length. -/
theorem c4_insert_returns_found_refetches_in_order {σ : Type} (E : Engine σ)
    (table : String) (data : List Record) (s : St σ) :
    (insertE E table data s).2 = (insertOutcomes E table data s).filterMap id
    ∧ (insertOutcomes E table data s).length = data.length
    ∧ (insertE E table data s).2.length ≤ data.length := by
  refine ⟨insertE_snd_eq E table data s, insertOutcomes_length E table data s, ?_⟩
  rw [insertE_snd_eq E table data s]
  calc ((insertOutcomes E table data s).filterMap id).length
      ≤ (insertOutcomes E table data s).length := List.length_filterMap_le _ _
    _ = data.length := insertOutcomes_length E table data s

/-- C10.  When the engine reports no useful last-inserted-row id (`None` or
`0`), `insert` does not skip the re-fetch or fail: `last_id or 0` makes the
re-fetch condition `id = 0` (WHERE text `id=0`), and the issued SQL trace of
inserting one row is exactly the INSERT followed by that `SELECT`. -/
theorem c10_refetch_uses_id_zero (lastId : Option Int)
    (h : lastId = Option.none ∨ lastId = Option.some 0) :
    refetchConds lastId = [⟨0, ⟨"id", CmpOp.EQ, Val.int 0, CombOp.AND⟩⟩]
    ∧ generate_conditions_str (refetchConds lastId) = "id=0"
    ∧ ∀ {σ : Type} (E : Engine σ) (s : St σ) (table : String) (row : Record),
        E.lastId (E.exec s.1 (insertSQL table row)) = lastId →
        (insertE E table [row] s).1.2
          = s.2 ++ [insertSQL table row,
              fetchSQL table Option.none
                (Option.some [⟨0, ⟨"id", CmpOp.EQ, Val.int 0, CombOp.AND⟩⟩])
                Option.none Option.none Option.none] := by
  have h0 : refetchConds lastId = [⟨0, ⟨"id", CmpOp.EQ, Val.int 0, CombOp.AND⟩⟩] := by
    rcases h with h | h <;> subst h <;> rfl
  refine ⟨h0, ?_, ?_⟩
  · rw [h0]
    decide
  · intro σ E s table row hE
    simp only [insertE, query, fetchE, hE, h0]
    simp

/-- An inert engine used to witness the statements about `insert`. -/
def trivEngine : Engine Unit where
  exec := fun _ _ => ()
  rows := fun _ => []
  lastId := fun _ => Option.none
  commit := fun _ => ()

/-- C10 witness: a `None` lastrowid produces the WHERE text `id=0` and the
trace INSERT-then-SELECT on a concrete engine and row. -/
theorem c10_witness :
    generate_conditions_str (refetchConds Option.none) = "id=0"
    ∧ (insertE trivEngine "t" [[("name", Val.str "x")]] ((), [])).1.2
        = [insertSQL "t" [("name", Val.str "x")],
           fetchSQL "t" Option.none
             (Option.some [⟨0, ⟨"id", CmpOp.EQ, Val.int 0, CombOp.AND⟩⟩])
             Option.none Option.none Option.none] := by
  have h := c10_refetch_uses_id_zero Option.none (Or.inl rfl)
  exact ⟨h.2.1, by
    simpa using h.2.2 trivEngine ((), []) "t" [("name", Val.str "x")] rfl⟩


